import Mathlib

/-!
Verification of the `cli` package of the docker command-line dispatcher
(src/cli/cli.go).  The Go code is shallowly embedded: handlers are modelled
as string-keyed action tables (the abstraction the spec itself gives for the
reflective `MethodByName` lookup), the `Initialize` hook of a handler is
modelled by the outcome it produces, and process-global effects (writing the
diagnostic, `os.Exit`) are modelled as explicit outcome values.  Dispatch is
state passing over the `Cli` record because `noSuchCommand` assigns to the
`Stderr` field.
-/

namespace DockerCli

/-- An output sink (a Go `io.Writer`).  `osStderr` is the process standard
error stream `os.Stderr`; `custom n` is any other writer a caller stored in
the `Stderr` field. -/
inductive Stream where
  | osStderr
  | custom (id : Nat)
deriving DecidableEq

/-- A registered handler (Go `Handler`, an `interface{}` probed by
reflection).  `methods` is the set of method names of the dynamic type that
have the shape `func(...string) error` — i.e. the names for which
`reflect.ValueOf(c).MethodByName(name)` yields a valid callable action.
`initHook` models the optional `Initializer` capability: `none` when the
handler does not implement `Initialize() error`; `some none` when it does and
the hook returns `nil`; `some (some e)` when the hook returns the error
message `e`. -/
structure Handler where
  methods : List String
  initHook : Option (Option String)
deriving DecidableEq

/-- The `Cli` struct: `Stderr io.Writer` (a `none` models the `nil` writer),
`handlers []Handler` (a `none` entry models a `nil` interface value, skipped
by the resolution loop), and `Usage func()` where `usage = true` models a
non-`nil` custom usage hook. -/
structure Cli where
  stderr : Option Stream
  handlers : List (Option Handler)
  usage : Bool
deriving DecidableEq

/-- The handler exposed by the generic `Cli` object itself: its only method
with the `Cmd` prefix and the action shape is `CmdHelp`, and `*Cli` does not
implement the `Initializer` capability. -/
def builtinHandler : Handler :=
  { methods := ["CmdHelp"], initHook := none }

/-- Go `New`: instantiates a `Cli` whose handler list is the argument list
with the generic `Cli` object itself prepended, so that `docker help` is
handled by the built-in handler first. -/
def New (handlers : List (Option Handler)) : Cli :=
  { stderr := none, handlers := some builtinHandler :: handlers, usage := false }

/-- Go `strings.ToUpper(s[:1]) + strings.ToLower(s[1:])` on a non-empty
token: first character upper-cased, remainder lower-cased. -/
def capitalize (s : String) : String :=
  match s.data with
  | [] => ""
  | c :: cs => String.mk (c.toUpper :: cs.map Char.toLower)

/-- The canonicalization loop of `command`: builds `camelArgs`, failing as
the Go loop does (returning the "empty command" path) as soon as a token is
the empty string. -/
def camelArgs : List String → Option (List String)
  | [] => some []
  | s :: rest =>
    if s.isEmpty then none
    else (camelArgs rest).map (fun cs => capitalize s :: cs)

/-- The errors `command` can produce: `errors.New("empty command")`,
`errors.New("command not found")`, and `initErr{err}` wrapping the message of
the error returned by a failing `Initialize` hook. -/
inductive CmdError where
  | emptyCommand
  | commandNotFound
  | initError (inner : String)
deriving DecidableEq

/-- A resolved action: the bound method, identified by the index of its
handler in `cli.handlers` and the synthesized method name. -/
structure Action where
  handlerIdx : Nat
  methodName : String
deriving DecidableEq

/-- Observable side effects of resolution: `initCalled i` records that the
`Initialize` hook of handler `i` was invoked. -/
inductive Event where
  | initCalled (handlerIdx : Nat)
deriving DecidableEq

/-- The `for _, c := range cli.handlers` loop of `command`, carrying the
index of the current handler.  A `nil` handler is skipped; otherwise the
canonical name `"Cmd" + join(camelArgs)` is probed; on the first valid
method the optional `Initialize` hook runs (recorded as an event) and either
aborts resolution with `initErr` or yields the action. -/
def commandLoop (handlers : List (Option Handler)) (idx : Nat) (args : List String) :
    List Event × Except CmdError Action :=
  match handlers with
  | [] => ([], Except.error CmdError.commandNotFound)
  | none :: rest => commandLoop rest (idx + 1) args
  | some h :: rest =>
    match camelArgs args with
    | none => ([], Except.error CmdError.emptyCommand)
    | some cs =>
      let methodName := "Cmd" ++ String.join cs
      if methodName ∈ h.methods then
        match h.initHook with
        | none => ([], Except.ok ⟨idx, methodName⟩)
        | some none => ([Event.initCalled idx], Except.ok ⟨idx, methodName⟩)
        | some (some e) => ([Event.initCalled idx], Except.error (CmdError.initError e))
      else commandLoop rest (idx + 1) args

/-- Go `(cli *Cli) command(args ...string)`. -/
def command (cli : Cli) (args : List String) : List Event × Except CmdError Action :=
  commandLoop cli.handlers 0 args

/-- An apostrophe, as it appears in the diagnostic text. -/
def squote : String := "\x27"

/-- The diagnostic `noSuchCommand` formats:
`docker: <token> is not a docker command.\nSee docker --help.\n` with the
token and `docker --help` wrapped in single quotes. -/
def noSuchCommandDiag (token : String) : String :=
  "docker: " ++ squote ++ token ++ squote ++ " is not a docker command.\nSee "
    ++ squote ++ "docker --help" ++ squote ++ ".\n"

/-- The terminal effect of `noSuchCommand`: the diagnostic `message` written
to `stream`, followed by `os.Exit(code)`. -/
structure ExitInfo where
  stream : Stream
  message : String
  code : Nat
deriving DecidableEq

/-- Go `noSuchCommand`: if `cli.Stderr` is `nil` it is first assigned
`os.Stderr` (a mutation of the `Cli`), then the diagnostic is printed to
`cli.Stderr` and the process exits with status 1. -/
def noSuchCommand (cli : Cli) (token : String) : Cli × ExitInfo :=
  let stderr := cli.stderr.getD Stream.osStderr
  ({ cli with stderr := some stderr },
   { stream := stderr, message := noSuchCommandDiag token, code := 1 })

/-- Which renderer printed the registry-wide usage: the caller-configured
`cli.Usage` hook, or the default `flag.Usage()`. -/
inductive UsageRenderer where
  | custom
  | flagDefault
deriving DecidableEq

/-- The possible outcomes of a `CmdHelp` call. -/
inductive HelpOutcome where
  /-- A command was resolved and invoked with the single argument
  `"--help"`; `CmdHelp` then returns `nil`. -/
  | invokedWithHelpFlag (act : Action) (callArgs : List String)
  /-- Resolution hit a failing `Initialize` hook: `CmdHelp` returns the
  inner error of the `initErr` wrapper. -/
  | returnedError (inner : String)
  /-- `noSuchCommand` ran: the diagnostic was printed and the process
  exited; nothing after it (in particular no usage text) is reached. -/
  | processExit (info : ExitInfo)
  /-- The registry-wide usage was printed and `CmdHelp` returned `nil`. -/
  | printedUsage (renderer : UsageRenderer)
deriving DecidableEq

/-- Go `(cli *Cli) CmdHelp(args ...string)`: with at least two args a
two-token resolution of the first two args is attempted, then a one-token
resolution of the first arg; a resolved command is invoked with `"--help"`;
an `initErr` returns its inner error; when both attempts fail locally
`noSuchCommand` runs on the first arg; with no args the registry-wide usage
is printed (the `cli.Usage` hook when set, else `flag.Usage()`). -/
def cmdHelp (cli : Cli) (args : List String) : List Event × Cli × HelpOutcome :=
  match args with
  | a :: b :: _ =>
    match command cli [a, b] with
    | (ev1, Except.ok act) =>
      (ev1, cli, HelpOutcome.invokedWithHelpFlag act ["--help"])
    | (ev1, Except.error (CmdError.initError e)) =>
      (ev1, cli, HelpOutcome.returnedError e)
    | (ev1, Except.error _) =>
      match command cli [a] with
      | (ev2, Except.ok act) =>
        (ev1 ++ ev2, cli, HelpOutcome.invokedWithHelpFlag act ["--help"])
      | (ev2, Except.error (CmdError.initError e)) =>
        (ev1 ++ ev2, cli, HelpOutcome.returnedError e)
      | (ev2, Except.error _) =>
        let (cli2, info) := noSuchCommand cli a
        (ev1 ++ ev2, cli2, HelpOutcome.processExit info)
  | [a] =>
    match command cli [a] with
    | (ev2, Except.ok act) =>
      (ev2, cli, HelpOutcome.invokedWithHelpFlag act ["--help"])
    | (ev2, Except.error (CmdError.initError e)) =>
      (ev2, cli, HelpOutcome.returnedError e)
    | (ev2, Except.error _) =>
      let (cli2, info) := noSuchCommand cli a
      (ev2, cli2, HelpOutcome.processExit info)
  | [] =>
    ([], cli,
     HelpOutcome.printedUsage
       (if cli.usage then UsageRenderer.custom else UsageRenderer.flagDefault))

/-- The possible outcomes of a `Run` call. -/
inductive RunOutcome where
  /-- A command was resolved; `Run` returns the result of invoking the
  action with `callArgs`, the tokens left after the command tokens. -/
  | invoked (act : Action) (callArgs : List String)
  /-- An `Initialize` hook failed: `Run` returns `err.error`, the inner
  error wrapped by `initErr`, as the dispatch result. -/
  | returnedError (inner : String)
  /-- `noSuchCommand` ran: diagnostic printed, process exited with the
  recorded status; the `CmdHelp` fallback line is never reached. -/
  | processExit (info : ExitInfo)
  /-- No args: `Run` returns `cli.CmdHelp()`. -/
  | help (h : HelpOutcome)
deriving DecidableEq

/-- Go `(cli *Cli) Run(args ...string)`: with more than one arg a two-token
resolution of `args[:2]` is attempted and, on success, the action is invoked
with `args[2:]`; an `initErr` short-circuits with its inner error; otherwise
(and whenever at least one arg is present) a one-token resolution of
`args[0]` is attempted, invoking with `args[1:]` on success; if that also
fails locally, `noSuchCommand(args[0])` prints the diagnostic and exits.
With no args `Run` returns `cli.CmdHelp()`. -/
def Run (cli : Cli) (args : List String) : List Event × Cli × RunOutcome :=
  match args with
  | a :: b :: rest =>
    match command cli [a, b] with
    | (ev1, Except.ok act) => (ev1, cli, RunOutcome.invoked act rest)
    | (ev1, Except.error (CmdError.initError e)) =>
      (ev1, cli, RunOutcome.returnedError e)
    | (ev1, Except.error _) =>
      match command cli [a] with
      | (ev2, Except.ok act) =>
        (ev1 ++ ev2, cli, RunOutcome.invoked act (b :: rest))
      | (ev2, Except.error (CmdError.initError e)) =>
        (ev1 ++ ev2, cli, RunOutcome.returnedError e)
      | (ev2, Except.error _) =>
        let (cli2, info) := noSuchCommand cli a
        (ev1 ++ ev2, cli2, RunOutcome.processExit info)
  | [a] =>
    match command cli [a] with
    | (ev2, Except.ok act) => (ev2, cli, RunOutcome.invoked act [])
    | (ev2, Except.error (CmdError.initError e)) =>
      (ev2, cli, RunOutcome.returnedError e)
    | (ev2, Except.error _) =>
      let (cli2, info) := noSuchCommand cli a
      (ev2, cli2, RunOutcome.processExit info)
  | [] =>
    match cmdHelp cli [] with
    | (ev, cli2, h) => (ev, cli2, RunOutcome.help h)

deriving instance DecidableEq for Except

/-- Resolution failed locally (the two non-short-circuiting errors of
`command`): the dispatcher falls through to the next attempt. -/
def resolutionFails (cli : Cli) (toks : List String) : Prop :=
  (command cli toks).2 = Except.error CmdError.emptyCommand ∨
    (command cli toks).2 = Except.error CmdError.commandNotFound

instance (cli : Cli) (toks : List String) : Decidable (resolutionFails cli toks) := by
  unfold resolutionFails
  exact inferInstance

/-- Whether the handler at position `k` of the list exposes a method named
`name` (a `nil` or absent entry exposes nothing). -/
def listMatches (hs : List (Option Handler)) (name : String) (k : Nat) : Bool :=
  match hs.get? k with
  | some (some h) => decide (name ∈ h.methods)
  | _ => false

/-- Fuel-indexed model of `initErr.Error`.  The Go method
`func (err initErr) Error() string { return err.Error() }` resolves the
receiver call to the method being defined (shadowing the promoted `Error` of
the embedded error), so every call only makes another identical call: with
any finite call-depth budget no string is ever produced.  `inner` is the
message of the wrapped error, which is never consulted. -/
def initErrErrorCalls (inner : String) : Nat → Option String
  | 0 => none
  | fuel + 1 => initErrErrorCalls inner fuel

/-- The `mflag` error-handling policies `Subcmd` selects between:
`ExitOnError` terminates the process on a parse error, `ContinueOnError`
returns the error to the caller. -/
inductive ErrorHandling where
  | continueOnError
  | exitOnError
deriving DecidableEq

/-- The flag-parsing context `Subcmd` builds: the subcommand name, the
chosen error-handling policy, and the text its `ShortUsage` renderer prints,
as a function of the value `FlagCountUndeprecated()` returns at render time
(the number of registered non-deprecated options). -/
structure FlagSetModel where
  name : String
  errorHandling : ErrorHandling
  shortUsage : Nat → String

/-- The output of the `ShortUsage` closure installed by `Subcmd`: for each
synopsis (the list `[""]` is substituted when none are given) a line
`\n<lead>docker <name><options><synopsis>` where the lead of the first line
is `Usage:\t` and `\t` afterwards, `options` is `" [OPTIONS]"` exactly when
`FlagCountUndeprecated() > 0`, and a non-empty synopsis is preceded by a
space; then a blank line and the description. -/
def shortUsageRender (name : String) (synopses : List String)
    (description : String) (flagCountUndeprecated : Nat) : String :=
  let options := if flagCountUndeprecated > 0 then " [OPTIONS]" else ""
  let syns := if synopses.length = 0 then [""] else synopses
  String.join (syns.enum.map (fun p =>
    "\n" ++ (if p.1 = 0 then "Usage:\t" else "\t") ++ "docker " ++ name
      ++ options ++ (if p.2 ≠ "" then " " ++ p.2 else p.2)))
    ++ "\n\n" ++ description ++ "\n"

/-- Go `Subcmd(name, synopses, description, exitOnError)`: picks
`flag.ExitOnError` when `exitOnError` and `flag.ContinueOnError` otherwise,
and installs the `ShortUsage` renderer above. -/
def Subcmd (name : String) (synopses : List String) (description : String)
    (exitOnError : Bool) : FlagSetModel :=
  { name := name
    errorHandling :=
      if exitOnError then ErrorHandling.exitOnError else ErrorHandling.continueOnError
    shortUsage := shortUsageRender name synopses description }

/-- One line of the usage block as the spec describes it: prefixed with the
program name and the command name, carrying the `[OPTIONS]` marker, and
showing the synopsis (separated by a space when non-empty). -/
def specUsageLine (lead name options synopsis : String) : String :=
  "\n" ++ lead ++ "docker " ++ name ++ options
    ++ (if synopsis = "" then "" else " " ++ synopsis)

/-- The usage text as the spec describes it: a `Usage:` block with one line
per synopsis — the first line led by `Usage:\t`, the following ones by a tab
— each prefixed with the program and command name and carrying a
`" [OPTIONS]"` marker exactly when at least one non-deprecated option is
registered, followed by a blank line and the free-text description. -/
def specShortUsage (name : String) (synopses : List String)
    (description : String) (flagCountUndeprecated : Nat) : String :=
  let options := if flagCountUndeprecated > 0 then " [OPTIONS]" else ""
  let block :=
    match (if synopses.isEmpty then [""] else synopses) with
    | [] => ""
    | s0 :: rest =>
      specUsageLine "Usage:\t" name options s0
        ++ String.join (rest.map (specUsageLine "\t" name options))
  block ++ "\n\n" ++ description ++ "\n"

lemma camelArgs_of_mem_empty : ∀ (args : List String), "" ∈ args → camelArgs args = none := by
  intro args
  induction args with
  | nil => intro h; cases h
  | cons s rest ih =>
    intro h
    rcases List.mem_cons.mp h with h | h
    · rw [← h]
      have he : ("" : String).isEmpty = true := rfl
      simp [camelArgs, he]
    · simp [camelArgs, ih h]

lemma commandLoop_empty_token :
    ∀ (hs : List (Option Handler)) (idx : Nat) (args : List String),
      "" ∈ args → hs.any Option.isSome = true →
      commandLoop hs idx args = ([], Except.error CmdError.emptyCommand) := by
  intro hs
  induction hs with
  | nil => intro idx args _ hany; simp at hany
  | cons o rest ih =>
    intro idx args hmem hany
    cases o with
    | none =>
      simp only [List.any_cons, Option.isSome_none, Bool.false_or] at hany
      simpa [commandLoop] using ih (idx + 1) args hmem hany
    | some h =>
      simp [commandLoop, camelArgs_of_mem_empty args hmem]

lemma run_both_fail (cli : Cli) (a : String) (rest : List String)
    (hfall : ∀ r0 rs, rest = r0 :: rs → resolutionFails cli [a, r0])
    (h1 : resolutionFails cli [a]) :
    (Run cli (a :: rest)).2 =
      ({ cli with stderr := some (cli.stderr.getD Stream.osStderr) },
       RunOutcome.processExit
         ⟨cli.stderr.getD Stream.osStderr, noSuchCommandDiag a, 1⟩) := by
  rcases h1c : command cli [a] with ⟨ev1, r1⟩
  unfold resolutionFails at h1
  rw [h1c] at h1
  simp at h1
  cases rest with
  | nil =>
    rcases h1 with h | h <;> subst h <;> simp [Run, h1c, noSuchCommand]
  | cons r0 rs =>
    have h2 := hfall r0 rs rfl
    rcases h2c : command cli [a, r0] with ⟨ev2, r2⟩
    unfold resolutionFails at h2
    rw [h2c] at h2
    simp at h2
    rcases h2 with h2 | h2 <;> rcases h1 with h1 | h1 <;> subst h2 <;> subst h1 <;>
      simp [Run, h1c, h2c, noSuchCommand]

lemma cmdHelp_both_fail (cli : Cli) (a : String) (rest : List String)
    (hfall : ∀ r0 rs, rest = r0 :: rs → resolutionFails cli [a, r0])
    (h1 : resolutionFails cli [a]) :
    (cmdHelp cli (a :: rest)).2 =
      ({ cli with stderr := some (cli.stderr.getD Stream.osStderr) },
       HelpOutcome.processExit
         ⟨cli.stderr.getD Stream.osStderr, noSuchCommandDiag a, 1⟩) := by
  rcases h1c : command cli [a] with ⟨ev1, r1⟩
  unfold resolutionFails at h1
  rw [h1c] at h1
  simp at h1
  cases rest with
  | nil =>
    rcases h1 with h | h <;> subst h <;> simp [cmdHelp, h1c, noSuchCommand]
  | cons r0 rs =>
    have h2 := hfall r0 rs rfl
    rcases h2c : command cli [a, r0] with ⟨ev2, r2⟩
    unfold resolutionFails at h2
    rw [h2c] at h2
    simp at h2
    rcases h2 with h2 | h2 <;> rcases h1 with h1 | h1 <;> subst h2 <;> subst h1 <;>
      simp [cmdHelp, h1c, h2c, noSuchCommand]

lemma listMatches_cons_succ (o : Option Handler) (rest : List (Option Handler))
    (name : String) (k : Nat) :
    listMatches (o :: rest) name (k + 1) = listMatches rest name k := rfl

lemma commandLoop_first_match :
    ∀ (hs : List (Option Handler)) (i idx : Nat) (args cs : List String) (h : Handler),
      camelArgs args = some cs →
      hs.get? i = some (some h) →
      ("Cmd" ++ String.join cs) ∈ h.methods →
      (∀ k, k < i → listMatches hs ("Cmd" ++ String.join cs) k = false) →
      commandLoop hs idx args =
        (match h.initHook with
         | some (some e) =>
           ([Event.initCalled (idx + i)], Except.error (CmdError.initError e))
         | some none =>
           ([Event.initCalled (idx + i)], Except.ok ⟨idx + i, "Cmd" ++ String.join cs⟩)
         | none => ([], Except.ok ⟨idx + i, "Cmd" ++ String.join cs⟩)) := by
  intro hs
  induction hs with
  | nil => intro i idx args cs h hca hget; simp at hget
  | cons o rest ih =>
    intro i idx args cs h hca hget hmem hfirst
    cases o with
    | none =>
      cases i with
      | zero => simp at hget
      | succ j =>
        have hget' : rest.get? j = some (some h) := by simpa using hget
        have hfirst' : ∀ k, k < j → listMatches rest ("Cmd" ++ String.join cs) k = false := by
          intro k hk
          have := hfirst (k + 1) (Nat.succ_lt_succ hk)
          simpa [listMatches_cons_succ] using this
        have hrec := ih j (idx + 1) args cs h hca hget' hmem hfirst'
        have heq : idx + 1 + j = idx + (j + 1) := by omega
        calc commandLoop (none :: rest) idx args
            = commandLoop rest (idx + 1) args := by rw [commandLoop]
          _ = _ := by rw [hrec, heq]
    | some h0 =>
      cases i with
      | zero =>
        have hh : h0 = h := by simpa using hget
        subst hh
        simp only [commandLoop, hca]
        rw [if_pos hmem]
        cases h0.initHook with
        | none => simp
        | some o => cases o with
          | none => simp
          | some e => simp
      | succ j =>
        have h0no : ("Cmd" ++ String.join cs) ∉ h0.methods := by
          have := hfirst 0 (Nat.succ_pos j)
          simpa [listMatches] using this
        have hget' : rest.get? j = some (some h) := by simpa using hget
        have hfirst' : ∀ k, k < j → listMatches rest ("Cmd" ++ String.join cs) k = false := by
          intro k hk
          have := hfirst (k + 1) (Nat.succ_lt_succ hk)
          simpa [listMatches_cons_succ] using this
        have hrec := ih j (idx + 1) args cs h hca hget' hmem hfirst'
        have heq : idx + 1 + j = idx + (j + 1) := by omega
        calc commandLoop (some h0 :: rest) idx args
            = commandLoop rest (idx + 1) args := by
              simp only [commandLoop, hca]
              rw [if_neg h0no]
          _ = _ := by rw [hrec, heq]

lemma synopsis_if_eq (x : String) :
    (if x ≠ "" then " " ++ x else x) = (if x = "" then "" else " " ++ x) := by
  by_cases hx : x = "" <;> simp [hx]

lemma join_cons (s : String) (l : List String) :
    String.join (s :: l) = s ++ String.join l := by
  apply String.ext
  simp

lemma join_enumFrom_usage (name options : String) :
    ∀ (l : List String) (k : Nat),
      String.join ((l.enumFrom (k + 1)).map (fun p =>
        "\n" ++ (if p.1 = 0 then "Usage:\t" else "\t") ++ "docker " ++ name
          ++ options ++ (if p.2 ≠ "" then " " ++ p.2 else p.2)))
        = String.join (l.map (specUsageLine "\t" name options)) := by
  intro l
  induction l with
  | nil => intro k; rfl
  | cons x xs ih =>
    intro k
    simp only [List.enumFrom, List.map_cons, join_cons]
    have h1 : (if k + 1 = 0 then "Usage:\t" else "\t") = "\t" := by simp
    rw [h1, ih (k + 1), synopsis_if_eq]
    simp [specUsageLine]

/-- C1: for every sequence of 1 or 2 non-empty command tokens whose
canonicalized name (`Cmd` followed by each token capitalized) resolves to a
registered action — i.e. `command` succeeds on those tokens — `Run` on the
command tokens followed by any remaining tokens invokes exactly that action
with exactly the remaining tokens as its arguments.  In the one-token case
the remaining tokens must not themselves form a resolvable or
initialization-failing two-token command, since `Run` attempts the two-token
resolution first (spec §4.2). -/
theorem run_invokes_matched_action :
    (∀ (cli : Cli) (a b : String) (rest : List String) (act : Action),
      a ≠ "" → b ≠ "" →
      (command cli [a, b]).2 = Except.ok act →
      (Run cli (a :: b :: rest)).2.2 = RunOutcome.invoked act rest) ∧
    (∀ (cli : Cli) (a : String) (rest : List String) (act : Action),
      a ≠ "" →
      (command cli [a]).2 = Except.ok act →
      (∀ r0 rs, rest = r0 :: rs → resolutionFails cli [a, r0]) →
      (Run cli (a :: rest)).2.2 = RunOutcome.invoked act rest) := by
  constructor
  · intro cli a b rest act _ _ h
    rcases hc : command cli [a, b] with ⟨ev1, r1⟩
    rw [hc] at h
    simp at h
    subst h
    simp [Run, hc]
  · intro cli a rest act _ h hfall
    rcases hc1 : command cli [a] with ⟨ev2, r2⟩
    rw [hc1] at h
    simp at h
    subst h
    cases rest with
    | nil => simp [Run, hc1]
    | cons r0 rs =>
      have h2 := hfall r0 rs rfl
      rcases hc2 : command cli [a, r0] with ⟨ev1, r1⟩
      unfold resolutionFails at h2
      rw [hc2] at h2
      simp at h2
      rcases h2 with h2 | h2 <;> subst h2 <;> simp [Run, hc2, hc1]

/-- Witness for C1, on the spec's own example scenario: the handler exposes
`CmdFoo` and `CmdBarBaz`; `Run ["bar","baz","x"]` invokes `CmdBarBaz` with
`["x"]`, and `Run ["foo","y"]` invokes `CmdFoo` with `["y"]`. -/
theorem run_invokes_matched_action_witness :
    (Run (New [some ⟨["CmdFoo", "CmdBarBaz"], none⟩]) ["bar", "baz", "x"]).2.2
        = RunOutcome.invoked ⟨1, "CmdBarBaz"⟩ ["x"] ∧
    (Run (New [some ⟨["CmdFoo", "CmdBarBaz"], none⟩]) ["foo", "y"]).2.2
        = RunOutcome.invoked ⟨1, "CmdFoo"⟩ ["y"] :=
  ⟨run_invokes_matched_action.1 (New [some ⟨["CmdFoo", "CmdBarBaz"], none⟩])
      "bar" "baz" ["x"] ⟨1, "CmdBarBaz"⟩ (by decide) (by decide) (by decide),
   run_invokes_matched_action.2 (New [some ⟨["CmdFoo", "CmdBarBaz"], none⟩])
      "foo" ["y"] ⟨1, "CmdFoo"⟩ (by decide) (by decide)
      (by intro r0 rs h; cases h; decide)⟩

/-- C2: when resolution matches a handler whose `Initialize` hook fails,
`Run` returns the inner error of the `initErr` wrapper directly as the
dispatch result: the outcome is `returnedError e` — by constructor
disjointness not an invocation, not the unresolved-command exit and not the
help fallback — and the `Cli` is left untouched (no diagnostic stream is
defaulted).  The match can occur in the two-token attempt or, when the
two-token attempt fails locally (or there is a single argument), in the
one-token attempt. -/
theorem run_init_failure_short_circuits :
    (∀ (cli : Cli) (a b : String) (rest : List String) (e : String),
      (command cli [a, b]).2 = Except.error (CmdError.initError e) →
      (Run cli (a :: b :: rest)).2 = (cli, RunOutcome.returnedError e)) ∧
    (∀ (cli : Cli) (a : String) (rest : List String) (e : String),
      (command cli [a]).2 = Except.error (CmdError.initError e) →
      (∀ r0 rs, rest = r0 :: rs → resolutionFails cli [a, r0]) →
      (Run cli (a :: rest)).2 = (cli, RunOutcome.returnedError e)) := by
  constructor
  · intro cli a b rest e h
    rcases hc : command cli [a, b] with ⟨ev1, r1⟩
    rw [hc] at h
    simp at h
    subst h
    simp [Run, hc]
  · intro cli a rest e h hfall
    rcases hc1 : command cli [a] with ⟨ev2, r2⟩
    rw [hc1] at h
    simp at h
    subst h
    cases rest with
    | nil => simp [Run, hc1]
    | cons r0 rs =>
      have h2 := hfall r0 rs rfl
      rcases hc2 : command cli [a, r0] with ⟨ev1, r1⟩
      unfold resolutionFails at h2
      rw [hc2] at h2
      simp at h2
      rcases h2 with h2 | h2 <;> subst h2 <;> simp [Run, hc2, hc1]

/-- Witness for C2: a handler exposing `CmdFoo` whose `Initialize` hook
fails with `boom`.  `Run ["foo"]` returns `boom` and the `Cli` value is
unchanged; the action is not invoked. -/
theorem run_init_failure_short_circuits_witness :
    (Run (New [some ⟨["CmdFoo"], some (some "boom")⟩]) ["foo"]).2
      = (New [some ⟨["CmdFoo"], some (some "boom")⟩], RunOutcome.returnedError "boom") :=
  run_init_failure_short_circuits.2 (New [some ⟨["CmdFoo"], some (some "boom")⟩])
    "foo" [] "boom" (by decide) (fun r0 rs h => List.noConfusion h)

/-- C3: when neither the two-token canonicalized name (when a second token
is available) nor the one-token canonicalized name of the first token
resolves, `Run` runs `noSuchCommand`: the not-a-recognized-command
diagnostic naming the first token is emitted on the configured error stream
(defaulting to `os.Stderr` when the field is nil) and the process exits with
status 1 — a non-zero status — without any action being invoked. -/
theorem run_unmatched_reports_and_exits :
    ∀ (cli : Cli) (a : String) (rest : List String),
      (∀ r0 rs, rest = r0 :: rs → resolutionFails cli [a, r0]) →
      resolutionFails cli [a] →
      (Run cli (a :: rest)).2 =
        ({ cli with stderr := some (cli.stderr.getD Stream.osStderr) },
         RunOutcome.processExit
           ⟨cli.stderr.getD Stream.osStderr, noSuchCommandDiag a, 1⟩) :=
  fun cli a rest hfall h1 => run_both_fail cli a rest hfall h1

/-- Witness for C3, on the spec's own example: no handler resolves `qux`,
so `Run ["qux"]` prints the diagnostic naming `qux` to `os.Stderr` (the
default, since the `Stderr` field was nil) and exits with status 1. -/
theorem run_unmatched_reports_and_exits_witness :
    (Run (New []) ["qux"]).2 =
      ({ stderr := some Stream.osStderr, handlers := [some builtinHandler], usage := false },
       RunOutcome.processExit ⟨Stream.osStderr, noSuchCommandDiag "qux", 1⟩) :=
  run_unmatched_reports_and_exits (New []) "qux" []
    (fun r0 rs h => List.noConfusion h) (by decide)

/-- C4 counterexample: on the concrete input `help foo bar` — i.e. the
built-in help action invoked with `["foo","bar"]`, which resolves to no
registered command — `CmdHelp` ends in `processExit`: `noSuchCommand`
prints the diagnostic and exits the process with status 1, so the
registry-wide general usage is never printed and the action does not return
success, contradicting the claim. -/
theorem cmdHelp_unresolved_exits_cex :
    (cmdHelp (New []) ["foo", "bar"]).2.2 =
      HelpOutcome.processExit ⟨Stream.osStderr, noSuchCommandDiag "foo", 1⟩ := by
  decide

/-- C4 amended: for every invocation of the built-in help action with an
argument sequence that resolves to no registered command, the help action
prints the unresolved-command diagnostic naming the first argument to the
error stream (defaulting to `os.Stderr`) and terminates the process with
status 1; the registry-wide general usage is not printed and the action
never returns (in particular it does not return success). -/
theorem cmdHelp_unresolved_exits :
    ∀ (cli : Cli) (a : String) (rest : List String),
      (∀ r0 rs, rest = r0 :: rs → resolutionFails cli [a, r0]) →
      resolutionFails cli [a] →
      (cmdHelp cli (a :: rest)).2 =
        ({ cli with stderr := some (cli.stderr.getD Stream.osStderr) },
         HelpOutcome.processExit
           ⟨cli.stderr.getD Stream.osStderr, noSuchCommandDiag a, 1⟩) :=
  fun cli a rest hfall h1 => cmdHelp_both_fail cli a rest hfall h1

/-- Witness for the amended C4: `help zzz w` with only the built-in handler
registered — neither `zzz w` nor `zzz` resolves, and `CmdHelp` exits with
the diagnostic naming `zzz`. -/
theorem cmdHelp_unresolved_exits_witness :
    (cmdHelp (New []) ["zzz", "w"]).2 =
      ({ stderr := some Stream.osStderr, handlers := [some builtinHandler], usage := false },
       HelpOutcome.processExit ⟨Stream.osStderr, noSuchCommandDiag "zzz", 1⟩) :=
  cmdHelp_unresolved_exits (New []) "zzz" ["w"]
    (by intro r0 rs h; cases h; decide) (by decide)

/-- C5: the `Error` method of the `initErr` wrapper calls itself — the
receiver call `err.Error()` resolves to the method being defined, not to the
promoted `Error` of the embedded error — so its evaluation diverges: for
every wrapped inner message and every finite call-depth budget, the
fuel-indexed model exhausts the budget without ever producing a string (in
particular it never produces the inner error's message). -/
theorem initErr_error_diverges :
    ∀ (inner : String) (fuel : Nat), initErrErrorCalls inner fuel = none := by
  intro inner fuel
  induction fuel with
  | zero => rfl
  | succ n ih => exact ih

/-- C6: `New` prepends the dispatcher's own built-in handler, and
resolution searches handlers strictly in list order: whenever the handler at
index `i` exposes the canonicalized method name and no earlier index does,
`command` settles the dispatch at index `i` — yielding its action (or its
failing `Initialize` hook's error) — so the earliest-registered matching
handler always wins and later handlers are never consulted. -/
theorem resolution_first_match_wins :
    (∀ hs, (New hs).handlers = some builtinHandler :: hs) ∧
    (∀ (cli : Cli) (args cs : List String) (i : Nat) (h : Handler),
      camelArgs args = some cs →
      cli.handlers.get? i = some (some h) →
      ("Cmd" ++ String.join cs) ∈ h.methods →
      (∀ k, k < i → listMatches cli.handlers ("Cmd" ++ String.join cs) k = false) →
      (command cli args).2 =
        (match h.initHook with
         | some (some e) => Except.error (CmdError.initError e)
         | _ => Except.ok ⟨i, "Cmd" ++ String.join cs⟩)) := by
  constructor
  · intro hs; rfl
  · intro cli args cs i h hca hget hmem hfirst
    have := commandLoop_first_match cli.handlers i 0 args cs h hca hget hmem hfirst
    rw [command, this]
    cases h.initHook with
    | none => simp
    | some o => cases o with
      | none => simp
      | some e => simp

/-- Witness for C6: two registered handlers both expose `CmdFoo`; the
earlier one (index 1, right after the built-in handler) is resolved. -/
theorem resolution_first_match_wins_witness :
    (command (New [some ⟨["CmdFoo"], none⟩, some ⟨["CmdFoo"], some (some "late")⟩]) ["foo"]).2
      = Except.ok ⟨1, "CmdFoo"⟩ :=
  resolution_first_match_wins.2
    (New [some ⟨["CmdFoo"], none⟩, some ⟨["CmdFoo"], some (some "late")⟩])
    ["foo"] ["Foo"] 1 ⟨["CmdFoo"], none⟩
    (by decide) (by decide) (by decide) (by decide)

/-- C7: on the empty argument vector `Run` invokes the built-in help action
with no arguments: no resolution events occur, the `Cli` is unchanged, and
the help action prints the registry-wide usage — with the custom `Usage`
hook when one is configured, else the default `flag.Usage` renderer — and
returns success. -/
theorem run_no_args_prints_usage :
    ∀ cli : Cli,
      Run cli [] =
        ([], cli,
         RunOutcome.help (HelpOutcome.printedUsage
           (if cli.usage then UsageRenderer.custom else UsageRenderer.flagDefault))) :=
  fun _ => rfl

/-- C8: a token sequence containing an empty-string token makes resolution
fail with the `empty command` (`InvalidCommand`) error before any handler is
consulted: no action is resolved and no `Initialize` hook runs (the event
trace is empty).  The failure is local: in `Run` it falls through like any
unmatched name, so a dispatch whose first token is empty bubbles to the
command-not-found handling (`noSuchCommand` on that token).  The handler
list is required to contain a non-nil entry — as any `New`-built `Cli` does
— since the emptiness check sits inside the per-handler loop. -/
theorem empty_token_invalid_command :
    (∀ (cli : Cli) (args : List String),
      "" ∈ args → cli.handlers.any Option.isSome = true →
      command cli args = ([], Except.error CmdError.emptyCommand)) ∧
    (∀ (cli : Cli) (rest : List String),
      cli.handlers.any Option.isSome = true →
      (Run cli ("" :: rest)).2 =
        ({ cli with stderr := some (cli.stderr.getD Stream.osStderr) },
         RunOutcome.processExit
           ⟨cli.stderr.getD Stream.osStderr, noSuchCommandDiag "", 1⟩)) := by
  constructor
  · intro cli args hmem hany
    exact commandLoop_empty_token cli.handlers 0 args hmem hany
  · intro cli rest hany
    have h1 : resolutionFails cli [""] :=
      Or.inl (by rw [command, commandLoop_empty_token cli.handlers 0 [""] (by simp) hany])
    have hfall : ∀ r0 rs, rest = r0 :: rs → resolutionFails cli ["", r0] := by
      intro r0 rs _
      exact Or.inl
        (by rw [command, commandLoop_empty_token cli.handlers 0 ["", r0] (by simp) hany])
    exact run_both_fail cli "" rest hfall h1

/-- Witness for C8: with the built-in handler registered, resolving
`["x",""]` fails with `empty command` without running any hook, and running
`Run` on a leading empty token exits through the command-not-found path. -/
theorem empty_token_invalid_command_witness :
    command (New []) ["x", ""] = ([], Except.error CmdError.emptyCommand) ∧
    (Run (New []) [""]).2 =
      ({ stderr := some Stream.osStderr, handlers := [some builtinHandler], usage := false },
       RunOutcome.processExit ⟨Stream.osStderr, noSuchCommandDiag "", 1⟩) :=
  ⟨empty_token_invalid_command.1 (New []) ["x", ""] (by decide) (by decide),
   empty_token_invalid_command.2 (New []) [] (by decide)⟩

/-- C9 counterexample: dispatch does mutate the `Cli`.  On the concrete
input `Run (New []) ["nope"]` the command-not-found path assigns
`os.Stderr` to the nil `Stderr` field, so the `Cli` value observable
afterwards differs from the value before the call. -/
theorem dispatch_mutates_cli_cex :
    (Run (New []) ["nope"]).2.1 ≠ New [] ∧
    (New ([] : List (Option Handler))).stderr = none ∧
    (Run (New []) ["nope"]).2.1.stderr = some Stream.osStderr := by
  decide

/-- Helper for the amended C9: every `Run` leaves the `Cli` either exactly
unchanged or with the single `noSuchCommand` update that stores the
defaulted error stream back into the `stderr` field. -/
lemma runState_cases (cli : Cli) (args : List String) :
    (Run cli args).2.1 = cli ∨
    (Run cli args).2.1 = { cli with stderr := some (cli.stderr.getD Stream.osStderr) } := by
  cases args with
  | nil => left; rfl
  | cons a rest =>
    cases rest with
    | nil =>
      rcases hc : command cli [a] with ⟨ev, r⟩
      rcases r with err | act
      · rcases err with _ | _ | e
        · right; simp [Run, hc, noSuchCommand]
        · right; simp [Run, hc, noSuchCommand]
        · left; simp [Run, hc]
      · left; simp [Run, hc]
    | cons b rest2 =>
      rcases hc : command cli [a, b] with ⟨ev, r⟩
      rcases r with err | act
      · rcases hc1 : command cli [a] with ⟨ev2, r2⟩
        rcases r2 with err2 | act2
        · rcases err with _ | _ | e
          · rcases err2 with _ | _ | e2
            · right; simp [Run, hc, hc1, noSuchCommand]
            · right; simp [Run, hc, hc1, noSuchCommand]
            · left; simp [Run, hc, hc1]
          · rcases err2 with _ | _ | e2
            · right; simp [Run, hc, hc1, noSuchCommand]
            · right; simp [Run, hc, hc1, noSuchCommand]
            · left; simp [Run, hc, hc1]
          · left; simp [Run, hc]
        · rcases err with _ | _ | e
          · left; simp [Run, hc, hc1]
          · left; simp [Run, hc, hc1]
          · left; simp [Run, hc]
      · left; simp [Run, hc]

/-- C9 amended: after construction, dispatch never mutates the handler list
or the usage hook of the `Cli`; the one mutation dispatch can perform is on
the error-stream field, where the command-not-found path stores the default
`os.Stderr` into a nil `Stderr` (an already-configured stream is written
back unchanged).  For every call to `Run`, the `Cli` afterwards agrees with
the `Cli` before on `handlers` and `usage`, and on `stderr` except for that
nil-to-default fill. -/
theorem dispatch_preserves_cli_fields :
    ∀ (cli : Cli) (args : List String),
      (Run cli args).2.1.handlers = cli.handlers ∧
      (Run cli args).2.1.usage = cli.usage ∧
      ((Run cli args).2.1.stderr = cli.stderr ∨
        (cli.stderr = none ∧ (Run cli args).2.1.stderr = some Stream.osStderr)) := by
  intro cli args
  rcases runState_cases cli args with h | h <;> rw [h]
  · exact ⟨rfl, rfl, Or.inl rfl⟩
  · refine ⟨rfl, rfl, ?_⟩
    rcases hs : cli.stderr with _ | s
    · exact Or.inr ⟨rfl, by simp⟩
    · exact Or.inl (by simp)

/-- C10: `Subcmd` selects the terminate-process-on-parse-error policy
(`flag.ExitOnError`) exactly when `exitOnError` is true and the return-error
policy (`flag.ContinueOnError`) otherwise; and the `ShortUsage` renderer it
installs prints exactly the block the spec describes: a `Usage:` line per
synopsis (one line when no synopsis is given), each prefixed with the
program and command name and carrying the `" [OPTIONS]"` marker exactly when
at least one non-deprecated option is registered, followed by a blank line
and the free-text description. -/
theorem subcmd_policy_and_usage :
    (∀ (n : String) (s : List String) (d : String),
      (Subcmd n s d true).errorHandling = ErrorHandling.exitOnError ∧
      (Subcmd n s d false).errorHandling = ErrorHandling.continueOnError) ∧
    (∀ (n : String) (s : List String) (d : String) (b : Bool) (count : Nat),
      (Subcmd n s d b).shortUsage count = specShortUsage n s d count) := by
  constructor
  · intro n s d; exact ⟨rfl, rfl⟩
  · intro n s d b count
    show shortUsageRender n s d count = specShortUsage n s d count
    unfold shortUsageRender specShortUsage
    cases s with
    | nil =>
      simp only [List.length_nil, List.isEmpty_nil, if_true, List.enum, List.enumFrom,
        List.map_cons, List.map_nil, join_cons, specUsageLine]
      apply String.ext
      simp
    | cons s0 ss =>
      have h1 : ((s0 :: ss).length = 0) = False := by simp
      have h2 : ((s0 :: ss).isEmpty = true) = False := by simp
      simp only [h1, h2, if_false, List.enum, List.enumFrom, List.map_cons, join_cons]
      rw [join_enumFrom_usage n (if count > 0 then " [OPTIONS]" else "") ss 0]
      rw [synopsis_if_eq]
      apply String.ext
      simp [specUsageLine]

end DockerCli
